import Mathlib

/-!
Verification of the `util` package (file `util/util.go`) of
sig-storage-lib-external-provisioner.

The Go code is shallowly embedded: Go `int64` values are modelled as `Int`
together with an explicit two's-complement wrap `wrap64` at every operation
that can overflow; Go functions returning `(T, error)` are modelled as
`Except`; the Kubernetes client and the DNS exchange (network I/O) are
modelled as explicit function parameters supplying their results.
-/

/-! ### Common allocation units (util.go lines 32-37) -/

def KiB : Int := 1024

def MiB : Int := 1024 * KiB

def GiB : Int := 1024 * MiB

def TiB : Int := 1024 * GiB

/-- Two's-complement wrap of an integer into the `int64` range
`[-2^63, 2^63)`; Go `int64` arithmetic wraps like this on overflow. -/
def wrap64 (z : Int) : Int := (z + 2 ^ 63) % 2 ^ 64 - 2 ^ 63

/-- Embedding of `RoundUpSize` (util.go lines 44-46):
`return (volumeSizeBytes + allocationUnitBytes - 1) / allocationUnitBytes`.
Go `+` and `-` on `int64` wrap on overflow, and Go `/` is truncating
(toward-zero) division, i.e. `Int.tdiv`.  (Go panics when the divisor is
zero; every claim below assumes a positive divisor.) -/
def RoundUpSize (volumeSizeBytes allocationUnitBytes : Int) : Int :=
  wrap64 (Int.tdiv (wrap64 (volumeSizeBytes + allocationUnitBytes - 1)) allocationUnitBytes)

/-- Embedding of `RoundUpToGiB` (util.go lines 49-51). -/
def RoundUpToGiB (sizeBytes : Int) : Int := RoundUpSize sizeBytes GiB

lemma wrap64_eq_self {z : Int} (h1 : -(2 ^ 63) ≤ z) (h2 : z < 2 ^ 63) :
    wrap64 z = z := by
  unfold wrap64
  omega

lemma wrap64_of_high {z : Int} (h1 : 2 ^ 63 ≤ z) (h2 : z < 2 ^ 64) :
    wrap64 z = z - 2 ^ 64 := by
  unfold wrap64
  omega

/-- For `0 ≤ v`, `0 < u` and no `int64` overflow of `v + u - 1`,
`RoundUpSize v u` is the Euclidean quotient `(v + u - 1) / u`. -/
lemma roundUpSize_eq_ediv (v u : Int) (hv : 0 ≤ v) (hu : 0 < u)
    (hno : v + u - 1 < 2 ^ 63) :
    RoundUpSize v u = (v + u - 1) / u := by
  have hd0 : 0 ≤ v + u - 1 := by omega
  have h1 : wrap64 (v + u - 1) = v + u - 1 := wrap64_eq_self (by omega) hno
  have htd : Int.tdiv (v + u - 1) u = (v + u - 1) / u :=
    Int.tdiv_eq_ediv hd0 (le_of_lt hu)
  have hq0 : 0 ≤ (v + u - 1) / u := Int.ediv_nonneg hd0 (le_of_lt hu)
  have hqle : (v + u - 1) / u ≤ v + u - 1 := Int.ediv_le_self u hd0
  unfold RoundUpSize
  rw [h1, htd]
  exact wrap64_eq_self (by omega) (by omega)

/-- C1 (amended): in the overflow-free range, `RoundUpSize v u` is the least
`n` with `n * u ≥ v`, and `(r - 1) * u < v` when `v > 0`. -/
theorem roundUpSize_least (v u : Int) (hv : 0 ≤ v) (hu : 0 < u)
    (hno : v + u - 1 < 2 ^ 63) :
    v ≤ RoundUpSize v u * u ∧
    (∀ n : Int, v ≤ n * u → RoundUpSize v u ≤ n) ∧
    (0 < v → (RoundUpSize v u - 1) * u < v) := by
  have hR : RoundUpSize v u = (v + u - 1) / u := roundUpSize_eq_ediv v u hv hu hno
  set q : Int := (v + u - 1) / u with hqdef
  have hmod : u * q + (v + u - 1) % u = v + u - 1 := Int.ediv_add_emod _ u
  have hmlt : (v + u - 1) % u < u := Int.emod_lt_of_pos _ hu
  have hmnn : 0 ≤ (v + u - 1) % u := Int.emod_nonneg _ (ne_of_gt hu)
  have hqu : q * u = (v + u - 1) - (v + u - 1) % u := by
    rw [mul_comm]; linarith
  have hge : v ≤ q * u := by rw [hqu]; linarith
  have hub : q * u ≤ v + u - 1 := by rw [hqu]; linarith
  refine ⟨by rw [hR]; exact hge, ?_, ?_⟩
  · intro n hn
    rw [hR]
    by_contra hlt
    push_neg at hlt
    have h1 : n + 1 ≤ q := by omega
    have h2 : (n + 1) * u ≤ q * u :=
      mul_le_mul_of_nonneg_right (by omega) (le_of_lt hu)
    have h3 : (n + 1) * u = n * u + u := by ring
    linarith
  · intro hvpos
    rw [hR]
    have h4 : (q - 1) * u = q * u - u := by ring
    linarith

/-- Witness for `roundUpSize_least` at the spec's own example:
1500 MiB rounded up to GiB units needs at least 1500 MiB. -/
theorem roundUpSize_least_witness :
    (1572864000 : Int) ≤ RoundUpSize 1572864000 1073741824 * 1073741824 :=
  (roundUpSize_least 1572864000 1073741824 (by decide) (by decide) (by decide)).1

/-- C1 counterexample: at `volumeSizeBytes = 2^63 - 1` (non-negative, a valid
`int64`) and `allocationUnitBytes = 1024` (positive), the intermediate sum
overflows and the returned count times the unit is far below the requested
size, falsifying the unrestricted claim. -/
theorem roundUpSize_not_least_at_max :
    0 ≤ (2 ^ 63 - 1 : Int) ∧ (0 : Int) < 1024 ∧
    RoundUpSize (2 ^ 63 - 1) 1024 = -9007199254740991 ∧
    RoundUpSize (2 ^ 63 - 1) 1024 * 1024 < 2 ^ 63 - 1 := by
  refine ⟨by decide, by decide, ?_, ?_⟩ <;> decide

/-- C10: when `v + u - 1` exceeds the `int64` maximum (both inputs valid
`int64` values, `u` positive), the sum wraps modulo `2^64` to the negative
value `v + u - 1 - 2^64` before the truncating division, and the returned
count is the truncated quotient of that wrapped sum. -/
theorem roundUpSize_overflow (v u : Int) (hv : v < 2 ^ 63) (hu : 0 < u)
    (hu2 : u < 2 ^ 63) (hover : 2 ^ 63 - u < v) :
    v + u - 1 - 2 ^ 64 < 0 ∧
    RoundUpSize v u = Int.tdiv (v + u - 1 - 2 ^ 64) u := by
  have hw : wrap64 (v + u - 1) = v + u - 1 - 2 ^ 64 :=
    wrap64_of_high (by omega) (by omega)
  set w : Int := v + u - 1 - 2 ^ 64 with hwdef
  have hwneg : w ≤ -2 := by omega
  have hwlo : -(2 ^ 63) ≤ w := by omega
  have hneg : Int.tdiv w u = -(Int.tdiv (-w) u) := by
    have h := Int.neg_tdiv (-w) u
    simp only [neg_neg] at h
    exact h
  have htd : Int.tdiv (-w) u = (-w) / u := Int.tdiv_eq_ediv (by omega) (le_of_lt hu)
  have h0 : 0 ≤ (-w) / u := Int.ediv_nonneg (by omega) (le_of_lt hu)
  have hle : (-w) / u ≤ -w := Int.ediv_le_self u (by omega)
  have hbound : w ≤ Int.tdiv w u ∧ Int.tdiv w u ≤ 0 := by
    rw [hneg, htd]; omega
  refine ⟨by omega, ?_⟩
  unfold RoundUpSize
  rw [hw]
  exact wrap64_eq_self (by omega) (by omega)

/-- Witness for `roundUpSize_overflow`: at `v = 2^63 - 1`, `u = 1024` the
returned count is the truncated quotient of the wrapped sum, and is negative. -/
theorem roundUpSize_overflow_witness :
    RoundUpSize (2 ^ 63 - 1) 1024 = Int.tdiv (2 ^ 63 - 1 + 1024 - 1 - 2 ^ 64) 1024 ∧
    RoundUpSize (2 ^ 63 - 1) 1024 < 0 :=
  ⟨(roundUpSize_overflow (2 ^ 63 - 1) 1024 (by decide) (by decide) (by decide)
      (by decide)).2,
   by decide⟩

/-! ### Access modes (util.go lines 54-71) -/

/-- `v1.PersistentVolumeAccessMode` is a Go string type; equality is string
equality. -/
abbrev PersistentVolumeAccessMode := String

def ReadWriteOnce : PersistentVolumeAccessMode := "ReadWriteOnce"

def ReadOnlyMany : PersistentVolumeAccessMode := "ReadOnlyMany"

def ReadWriteMany : PersistentVolumeAccessMode := "ReadWriteMany"

/-- Embedding of `AccessModesContains` (util.go lines 54-61): linear scan,
returning `true` on the first element equal to `mode`. -/
def AccessModesContains :
    List PersistentVolumeAccessMode → PersistentVolumeAccessMode → Bool
  | [], _ => false
  | m :: ms, mode => if m = mode then true else AccessModesContains ms mode

/-- Embedding of `AccessModesContainedInAll` (util.go lines 64-71): scan
`requestedModes`, returning `false` at the first one not contained in
`indexedModes`. -/
def AccessModesContainedInAll (indexedModes : List PersistentVolumeAccessMode) :
    List PersistentVolumeAccessMode → Bool
  | [] => true
  | mode :: rest =>
    if ! AccessModesContains indexedModes mode then false
    else AccessModesContainedInAll indexedModes rest

lemma accessModesContains_iff_mem (modes : List PersistentVolumeAccessMode)
    (mode : PersistentVolumeAccessMode) :
    AccessModesContains modes mode = true ↔ mode ∈ modes := by
  induction modes with
  | nil => simp [AccessModesContains]
  | cons m ms ih =>
    simp only [AccessModesContains, List.mem_cons]
    by_cases h : m = mode
    · simp [h]
    · have h2 : ¬ mode = m := fun he => h he.symm
      simp [h, h2, ih]

lemma accessModesContainedInAll_iff
    (indexedModes requestedModes : List PersistentVolumeAccessMode) :
    AccessModesContainedInAll indexedModes requestedModes = true ↔
      ∀ mode ∈ requestedModes, mode ∈ indexedModes := by
  induction requestedModes with
  | nil => simp [AccessModesContainedInAll]
  | cons mode rest ih =>
    by_cases h : AccessModesContains indexedModes mode
    · simp [AccessModesContainedInAll, h, ih,
        (accessModesContains_iff_mem indexedModes mode).mp h]
    · have hm : ¬ mode ∈ indexedModes := fun hmem =>
        h ((accessModesContains_iff_mem indexedModes mode).mpr hmem)
      simp only [Bool.not_eq_true] at h
      simp [AccessModesContainedInAll, h, hm]

/-- C4: `AccessModesContainedInAll i r` is `true` iff every element of `r`
appears in `i`; the result is invariant under permutation of either argument
and under repetition of the requested modes. -/
theorem accessModesContainedInAll_spec
    (indexedModes requestedModes : List PersistentVolumeAccessMode) :
    (AccessModesContainedInAll indexedModes requestedModes = true ↔
      ∀ mode ∈ requestedModes, mode ∈ indexedModes) ∧
    (∀ i r, indexedModes.Perm i → requestedModes.Perm r →
      AccessModesContainedInAll i r =
        AccessModesContainedInAll indexedModes requestedModes) ∧
    (AccessModesContainedInAll indexedModes (requestedModes ++ requestedModes) =
      AccessModesContainedInAll indexedModes requestedModes) := by
  refine ⟨accessModesContainedInAll_iff _ _, ?_, ?_⟩
  · intro i r hi hr
    rw [Bool.eq_iff_iff]
    rw [accessModesContainedInAll_iff, accessModesContainedInAll_iff]
    constructor
    · intro h mode hmode
      exact (hi.mem_iff).mpr (h mode ((hr.mem_iff).mp hmode))
    · intro h mode hmode
      exact (hi.mem_iff).mp (h mode ((hr.mem_iff).mpr hmode))
  · rw [Bool.eq_iff_iff]
    rw [accessModesContainedInAll_iff, accessModesContainedInAll_iff]
    constructor
    · intro h mode hmode
      exact h mode (List.mem_append_left _ hmode)
    · intro h mode hmode
      rcases List.mem_append.mp hmode with h1 | h1
      · exact h mode h1
      · exact h mode h1

/-- Witness for `accessModesContainedInAll_spec`: permuting the indexed modes
does not change the result on concrete inputs. -/
theorem accessModesContainedInAll_spec_witness :
    AccessModesContainedInAll [ ReadOnlyMany, ReadWriteOnce ] [ ReadOnlyMany ] =
      AccessModesContainedInAll [ ReadWriteOnce, ReadOnlyMany ] [ ReadOnlyMany ] :=
  (accessModesContainedInAll_spec [ ReadWriteOnce, ReadOnlyMany ]
      [ ReadOnlyMany ]).2.1 [ ReadOnlyMany, ReadWriteOnce ] [ ReadOnlyMany ]
    (List.Perm.swap _ _ _) (List.Perm.refl _)

/-! ### PV/PVC metadata (util.go lines 74-102) -/

/-- The well-known legacy annotation key `v1.BetaStorageClassAnnotationKey`
(named `BetaStorageClassAnnotation` in the Kubernetes API). -/
def BetaStorageClassAnnotationKey : String := "volume.beta.kubernetes.io/storage-class"

/-- `v1.PersistentVolumeMode`: `Filesystem` or `Block`. -/
inductive PersistentVolumeMode
  | Filesystem
  | Block
deriving DecidableEq

/-- The fields of `v1.PersistentVolume` read by this module: the annotation
map (modelled as an association list) and `Spec.StorageClassName`. -/
structure PersistentVolume where
  annotations : List (String × String)
  storageClassName : String

/-- The fields of `v1.PersistentVolumeClaim` read by this module: the
annotation map, the optional (`*string` in Go) `Spec.StorageClassName`, and
the optional `Spec.VolumeMode`. -/
structure PersistentVolumeClaim where
  annotations : List (String × String)
  storageClassName : Option String
  volumeMode : Option PersistentVolumeMode

/-- Embedding of `GetPersistentVolumeClass` (util.go lines 74-81): the beta
annotation, if present, takes precedence over `Spec.StorageClassName`. -/
def GetPersistentVolumeClass (volume : PersistentVolume) : String :=
  match volume.annotations.lookup BetaStorageClassAnnotationKey with
  | some class0 => class0
  | none => volume.storageClassName

/-- Embedding of `GetPersistentVolumeClaimClass` (util.go lines 85-96): the
beta annotation, if present, takes precedence; a nil `StorageClassName`
pointer yields `""`. -/
def GetPersistentVolumeClaimClass (claim : PersistentVolumeClaim) : String :=
  match claim.annotations.lookup BetaStorageClassAnnotationKey with
  | some class0 => class0
  | none =>
    match claim.storageClassName with
    | some name => name
    | none => ""

/-- Embedding of `CheckPersistentVolumeClaimModeBlock` (util.go lines
100-102): `pvc.Spec.VolumeMode != nil && *pvc.Spec.VolumeMode == Block`,
with the match guarding the dereference exactly as `&&` does in Go. -/
def CheckPersistentVolumeClaimModeBlock (pvc : PersistentVolumeClaim) : Bool :=
  match pvc.volumeMode with
  | some m => m == PersistentVolumeMode.Block
  | none => false

/-- C5: both class accessors apply the same precedence rule: a present beta
annotation is returned; only otherwise is the structured field consulted
(`Option.getD ""` for the claim's optional field). -/
theorem storageClass_precedence (volume : PersistentVolume)
    (claim : PersistentVolumeClaim) :
    (∀ c, volume.annotations.lookup BetaStorageClassAnnotationKey = some c →
      GetPersistentVolumeClass volume = c) ∧
    (volume.annotations.lookup BetaStorageClassAnnotationKey = none →
      GetPersistentVolumeClass volume = volume.storageClassName) ∧
    (∀ c, claim.annotations.lookup BetaStorageClassAnnotationKey = some c →
      GetPersistentVolumeClaimClass claim = c) ∧
    (claim.annotations.lookup BetaStorageClassAnnotationKey = none →
      GetPersistentVolumeClaimClass claim = claim.storageClassName.getD "") := by
  refine ⟨?_, ?_, ?_, ?_⟩
  · intro c hc
    simp [GetPersistentVolumeClass, hc]
  · intro hn
    simp [GetPersistentVolumeClass, hn]
  · intro c hc
    simp [GetPersistentVolumeClaimClass, hc]
  · intro hn
    cases h : claim.storageClassName with
    | some name => simp [GetPersistentVolumeClaimClass, hn, h]
    | none => simp [GetPersistentVolumeClaimClass, hn, h]

/-- Witness for `storageClass_precedence`: a volume with the legacy
annotation set to "fast" and structured class "slow" yields "fast". -/
theorem storageClass_precedence_witness :
    GetPersistentVolumeClass
      { annotations := [(BetaStorageClassAnnotationKey, "fast")],
        storageClassName := "slow" } = "fast" :=
  (storageClass_precedence
      { annotations := [(BetaStorageClassAnnotationKey, "fast")],
        storageClassName := "slow" }
      { annotations := [], storageClassName := none, volumeMode := none }).1
    "fast" (by decide)

/-- C6: with the annotation absent and a nil structured storage-class
pointer, `GetPersistentVolumeClaimClass` returns `""` (the dereference
branch of the match is never taken). -/
theorem claimClass_nil_pointer (claim : PersistentVolumeClaim)
    (h1 : claim.annotations.lookup BetaStorageClassAnnotationKey = none)
    (h2 : claim.storageClassName = none) :
    GetPersistentVolumeClaimClass claim = "" := by
  simp [GetPersistentVolumeClaimClass, h1, h2]

/-- Witness for `claimClass_nil_pointer` at a concrete claim. -/
theorem claimClass_nil_pointer_witness :
    GetPersistentVolumeClaimClass
      { annotations := [], storageClassName := none, volumeMode := none } = "" :=
  claimClass_nil_pointer
    { annotations := [], storageClassName := none, volumeMode := none }
    (by decide) rfl

/-- C7: `CheckPersistentVolumeClaimModeBlock` is `true` iff the claim's
volume mode is present and equal to `Block`; a `none` volume mode yields
`false`. -/
theorem checkClaimModeBlock_spec (pvc : PersistentVolumeClaim) :
    (CheckPersistentVolumeClaimModeBlock pvc = true ↔
      pvc.volumeMode = some PersistentVolumeMode.Block) ∧
    (pvc.volumeMode = none → CheckPersistentVolumeClaimModeBlock pvc = false) := by
  obtain ⟨anns, scn, vm⟩ := pvc
  rcases vm with _ | m
  · simp [CheckPersistentVolumeClaimModeBlock]
  · cases m <;> simp [CheckPersistentVolumeClaimModeBlock]

/-- Witness for `checkClaimModeBlock_spec`: a claim without a volume mode is
not in block mode. -/
theorem checkClaimModeBlock_spec_witness :
    CheckPersistentVolumeClaimModeBlock
      { annotations := [], storageClassName := none, volumeMode := none } = false :=
  (checkClaimModeBlock_spec
      { annotations := [], storageClassName := none, volumeMode := none }).2 rfl

/-! ### DNS helpers (util.go lines 105-147) -/

/-- `metav1.NamespaceSystem`, the system namespace name. -/
def NamespaceSystem : String := "kube-system"

def corednsName : String := "coredns"

def kubednsName : String := "kube-dns"

/-- The field of `v1.Service` read by this module: `Spec.ClusterIP`. -/
structure Service where
  clusterIP : String

/-- Embedding of `FindDNSIP` (util.go lines 105-127).  The Kubernetes client
is modelled by `svcGet ns name`, the result of
`client.CoreV1().Services(ns).Get(ctx, name, ...)`: on a failed "coredns"
lookup it falls back to "kube-dns"; on a second failure it returns `""`; a
service with an empty `ClusterIP` also yields `""`.  The Go function's
return type is plain `string`: no error value is ever returned. -/
def FindDNSIP (svcGet : String → String → Except String Service) : String :=
  let dnssvc : Option Service :=
    match svcGet NamespaceSystem corednsName with
    | .ok coredns => some coredns
    | .error _ =>
      match svcGet NamespaceSystem kubednsName with
      | .ok kubedns => some kubedns
      | .error _ => none
  match dnssvc with
  | none => ""
  | some svc => if svc.clusterIP.length = 0 then "" else svc.clusterIP

/-- C2: `FindDNSIP` (whose return type is `String`, never an error value)
falls back from "coredns" to "kube-dns" on any lookup failure, returns `""`
when both lookups fail, returns `""` when the found service has an empty
`ClusterIP`, and otherwise returns that `ClusterIP`. -/
theorem findDNSIP_spec (svcGet : String → String → Except String Service) :
    (∀ e e', svcGet NamespaceSystem corednsName = .error e →
      svcGet NamespaceSystem kubednsName = .error e' →
      FindDNSIP svcGet = "") ∧
    (∀ svc, svcGet NamespaceSystem corednsName = .ok svc →
      FindDNSIP svcGet =
        (if svc.clusterIP.length = 0 then "" else svc.clusterIP)) ∧
    (∀ e svc, svcGet NamespaceSystem corednsName = .error e →
      svcGet NamespaceSystem kubednsName = .ok svc →
      FindDNSIP svcGet =
        (if svc.clusterIP.length = 0 then "" else svc.clusterIP)) := by
  refine ⟨?_, ?_, ?_⟩
  · intro e e' h1 h2
    simp [FindDNSIP, h1, h2]
  · intro svc h1
    simp [FindDNSIP, h1]
  · intro e svc h1 h2
    simp [FindDNSIP, h1, h2]

/-- Witness for `findDNSIP_spec`: "coredns" lookup fails, "kube-dns"
succeeds with `ClusterIP` "10.0.0.10", and "10.0.0.10" is returned. -/
theorem findDNSIP_spec_witness :
    FindDNSIP (fun _ name =>
      if name = kubednsName then Except.ok { clusterIP := "10.0.0.10" }
      else Except.error ("not found")) = "10.0.0.10" := by
  have h := (findDNSIP_spec (fun _ name =>
      if name = kubednsName then Except.ok { clusterIP := "10.0.0.10" }
      else Except.error ("not found"))).2.2
    ("not found") { clusterIP := "10.0.0.10" } rfl rfl
  rw [h]
  rfl

/-- A DNS resource record in a response's answer section: a `*dns.A` record
carrying an IPv4 address (as produced by `t.A.String()`), or a record of any
other type (e.g. a CNAME), which the Go type switch ignores. -/
inductive DNSRecord
  | A (ip : String)
  | other (rr : String)

/-- A DNS response message, reduced to its answer section. -/
structure DNSMsg where
  answer : List DNSRecord

/-- The selector of the Go type switch `a.(*dns.A)`: the address of an `A`
record, nothing for any other record. -/
def aRecordIP : DNSRecord → Option String
  | .A ip => some ip
  | .other _ => none

/-- Embedding of `LookupHost` (util.go lines 130-147).  The single
`dns.Exchange` call (and everything it depends on: hostname, server IP,
network) is modelled by its result `exchange`.  On failure the error is
returned as-is; on success the Go loop appends `t.A.String()` to `iplist`
for exactly the `*dns.A` answers, in answer order. -/
def LookupHost (exchange : Except String DNSMsg) : Except String (List String) :=
  match exchange with
  | .error e => .error e
  | .ok res =>
    .ok (res.answer.foldl
      (fun iplist a =>
        match a with
        | .A ip => iplist ++ [ip]
        | .other _ => iplist) [])

lemma lookupHost_foldl (l : List DNSRecord) (acc : List String) :
    l.foldl
      (fun iplist a =>
        match a with
        | .A ip => iplist ++ [ip]
        | .other _ => iplist) acc = acc ++ l.filterMap aRecordIP := by
  induction l generalizing acc with
  | nil => simp
  | cons a l ih =>
    cases a with
    | A ip => simp [List.filterMap_cons, aRecordIP, ih]
    | other rr => simp [List.filterMap_cons, aRecordIP, ih]

/-- C3: `LookupHost` returns an error exactly when the DNS exchange fails
(and then exactly that error); on success it returns, error-free, the
addresses of exactly the type-`A` answer records in answer-section order,
dropping every non-`A` record. -/
theorem lookupHost_spec (exchange : Except String DNSMsg) :
    (∀ e, exchange = .error e → LookupHost exchange = .error e) ∧
    (∀ res, exchange = .ok res →
      LookupHost exchange = .ok (res.answer.filterMap aRecordIP)) := by
  constructor
  · intro e he
    rw [he]
    rfl
  · intro res hres
    rw [hres]
    simp [LookupHost, lookupHost_foldl]

/-- Witness for `lookupHost_spec`: a successful exchange whose answer
section holds an `A` record, a non-`A` record and another `A` record yields
the two addresses in order. -/
theorem lookupHost_spec_witness :
    LookupHost (Except.ok
      { answer := [DNSRecord.A ("10.0.0.5"), DNSRecord.other ("cname example."),
                   DNSRecord.A ("10.0.0.6")] }) =
      Except.ok (["10.0.0.5", "10.0.0.6"]) := by
  rw [(lookupHost_spec _).2 _ rfl]
  rfl

/-! ### Host/port string helpers (util.go lines 150-164)

`SplitHostPort` and `JoinHostPort` delegate to `net.SplitHostPort` and
`net.JoinHostPort` from the Go standard library; those two are embedded
below following the standard library's algorithm (package `net`,
`ipsock.go`), at character rather than byte granularity. -/

/-- Go `bytealg.IndexByteString`: index of the first occurrence of `c`,
`-1 if absent. -/
def stringIndex (s : List Char) (c : Char) : Int :=
  match s.findIdx? (fun x => x = c) with
  | some i => (i : Int)
  | none => -1

/-- Go `net.last`: index of the last occurrence of `c`, `-1` if absent. -/
def stringLastIndex (s : List Char) (c : Char) : Int :=
  match s.reverse.findIdx? (fun x => x = c) with
  | some i => (s.length : Int) - 1 - (i : Int)
  | none => -1

/-- Embedding of Go `net.SplitHostPort`: the port starts after the last
colon; a leading `[` opens an IPv6 bracket whose `]` must sit right before
that colon; stray colons or brackets are errors.  (Error messages are
paraphrased.) -/
def netSplitHostPort (hostport : String) : Except String (String × String) :=
  let s := hostport.toList
  let i := stringLastIndex s ':'
  let final : List Char → Nat → Nat → Except String (String × String) :=
    fun host j k =>
      if stringIndex (s.drop j) '[' ≥ 0 then
        Except.error ("unexpected open bracket in address")
      else if stringIndex (s.drop k) ']' ≥ 0 then
        Except.error ("unexpected close bracket in address")
      else Except.ok (host.asString, (s.drop (i.toNat + 1)).asString)
  if i < 0 then Except.error ("missing port in address")
  else if s.head? = some '[' then
    let e := stringIndex s ']'
    if e < 0 then Except.error ("missing close bracket in address")
    else if e + 1 = (s.length : Int) then Except.error ("missing port in address")
    else if e + 1 = i then final ((s.drop 1).take (e.toNat - 1)) 1 (e.toNat + 1)
    else if s[e.toNat + 1]? = some ':' then
      Except.error ("too many colons in address")
    else Except.error ("missing port in address")
  else
    let host := s.take i.toNat
    if stringIndex host ':' ≥ 0 then Except.error ("too many colons in address")
    else final host 0 0

/-- Embedding of Go `net.JoinHostPort`: a host containing a colon is assumed
to be an IPv6 literal and is bracketed. -/
def netJoinHostPort (host port : String) : String :=
  if stringIndex host.toList ':' ≥ 0 then "[" ++ host ++ "]:" ++ port
  else host ++ ":" ++ port

/-- Embedding of `SplitHostPort` (util.go lines 150-156): on a
`net.SplitHostPort` parse error the whole input becomes the host and the
port is empty. -/
def SplitHostPort (hostport : String) : String × String :=
  match netSplitHostPort hostport with
  | .ok (host, port) => (host, port)
  | .error _ => (hostport, "")

/-- Embedding of `JoinHostPort` (util.go lines 159-164): an empty port
returns the host unchanged; otherwise `net.JoinHostPort` joins them. -/
def JoinHostPort (host port : String) : String :=
  if port ≠ "" then netJoinHostPort host port
  else host

/-- C8: `SplitHostPort` never fails: a successful standard parse is returned
as-is, a failed parse degrades to the whole input as host with an empty
port; in particular "host:53" splits into ("host","53") and "hostonly"
becomes ("hostonly",""). -/
theorem splitHostPort_spec (hostport : String) :
    (∀ host port, netSplitHostPort hostport = .ok (host, port) →
      SplitHostPort hostport = (host, port)) ∧
    (∀ e, netSplitHostPort hostport = .error e →
      SplitHostPort hostport = (hostport, "")) ∧
    SplitHostPort ("host:53") = ("host", "53") ∧
    SplitHostPort ("hostonly") = ("hostonly", "") := by
  refine ⟨?_, ?_, by decide, by decide⟩
  · intro host port h
    simp [SplitHostPort, h]
  · intro e h
    simp [SplitHostPort, h]

/-- Witness for `splitHostPort_spec`: the successful-parse case at
"host:53". -/
theorem splitHostPort_spec_witness :
    SplitHostPort ("host:53") = ("host", "53") :=
  (splitHostPort_spec ("host:53")).1 ("host") ("53") rfl

/-- C9: `JoinHostPort` with an empty port returns the host unchanged (no
trailing colon); with a non-empty port it performs the standard join,
bracketing hosts that contain a colon (IPv6 literals); in particular
("host","53") joins to "host:53". -/
theorem joinHostPort_spec (host port : String) :
    (port = "" → JoinHostPort host port = host) ∧
    (port ≠ "" → JoinHostPort host port =
      (if stringIndex host.toList ':' ≥ 0 then "[" ++ host ++ "]:" ++ port
       else host ++ ":" ++ port)) ∧
    JoinHostPort ("host") ("") = "host" ∧
    JoinHostPort ("host") ("53") = "host:53" := by
  refine ⟨?_, ?_, by decide, by decide⟩
  · intro h
    simp [JoinHostPort, h]
  · intro h
    simp [JoinHostPort, h, netJoinHostPort]

/-- Witness for `joinHostPort_spec`: the non-empty-port case at
("host","53"). -/
theorem joinHostPort_spec_witness :
    JoinHostPort ("host") ("53") = "host:53" :=
  ((joinHostPort_spec ("host") ("53")).2.1 (by decide)).trans (by decide)
